import Mathlib

set_option maxHeartbeats 1000000

/-!
Shallow embedding of the nakedcap-podcast pipeline (src/scraper.py) and
verification of the specified properties of its episode-assembly and
feed-state pipeline.

Strings are modelled as `List Char`.  External collaborators (the scraper,
trafilatura text extraction, edge-tts synthesis, pydub decoding, the file
byte-size query, the clock and `email.utils.format_datetime`) are modelled
as oracle functions collected in an `Env` record; everything downstream of
them is translated from the source.
-/

namespace NakedCap

-- ── Python text utilities (str.split / textwrap.shorten) ──

/-- Whitespace test used by Python `str.split()` and `textwrap`:
space, tab, newline, carriage return, vertical tab, form feed. -/
def is_py_space (c : Char) : Bool :=
  c == ' ' || c == '\t' || c == '\n' || c == '\r' || c == '\x0b' || c == '\x0c'

/-- Accumulator-based word splitter: `words_aux cur s` scans `s`, building the
current word (reversed) in `cur`, and flushes a word at each whitespace run. -/
def words_aux : List Char → List Char → List (List Char)
  | cur, [] => if cur = [] then [] else [cur.reverse]
  | cur, c :: rest =>
    if is_py_space c then
      (if cur = [] then words_aux [] rest else cur.reverse :: words_aux [] rest)
    else
      words_aux (c :: cur) rest

/-- Python `s.split()` with no arguments: runs of whitespace separate words,
and no empty words are produced. -/
def words_of (s : List Char) : List (List Char) := words_aux [] s

/-- Python `sep.join(ws)`. -/
def join_with (sep : List Char) : List (List Char) → List Char
  | [] => []
  | [w] => w
  | w :: ws => w ++ sep ++ join_with sep ws

/-- The whitespace collapse performed by `textwrap.shorten` before any
truncation: `" ".join(s.split())`. -/
def py_collapse (s : List Char) : List Char := join_with [' '] (words_of s)

/-- Python `s.lstrip()` restricted to whitespace. -/
def lstrip_of (s : List Char) : List Char := s.dropWhile is_py_space

/-- The word-boundary cut used by `textwrap.shorten` when the collapsed text
does not fit: the largest `j ≥ 1` such that the first `j` words joined by
single spaces still fit in `width` together with the placeholder. -/
def best_cut (width ph_len : Nat) (ws : List (List Char)) : Option Nat :=
  ((List.range (ws.length + 1)).reverse).find?
    (fun j => decide (1 ≤ j ∧ (join_with [' '] (ws.take j)).length + ph_len ≤ width))

/-- Model of Python `textwrap.shorten(s, width, placeholder=ph)` following its
documented semantics: first all whitespace runs in `s` are collapsed to single
spaces; if the result fits in `width` it is returned as is; otherwise words are
dropped from the end until the remaining words plus the placeholder fit, and
when not even one word fits the left-stripped placeholder alone is returned. -/
def textwrap_shorten (width : Nat) (ph : List Char) (s : List Char) : List Char :=
  let ws := words_of s
  let collapsed := join_with [' '] ws
  if collapsed.length ≤ width then collapsed
  else
    match best_cut width ph.length ws with
    | some j => join_with [' '] (ws.take j) ++ ph
    | none => lstrip_of ph

-- ── XML escaping (the `_xml` helper, lines 237-240) ──

/-- One step of Python `str.replace(old, new)` for a single-character `old`:
the substitution applied to one character. -/
def subst_one (c : Char) (rep : List Char) (a : Char) : List Char :=
  if a = c then rep else [a]

/-- Python `s.replace(old, new)` for a single-character `old`. -/
def replace_char (c : Char) (rep : List Char) : List Char → List Char
  | [] => []
  | a :: rest => subst_one c rep a ++ replace_char c rep rest

/-- Embedding of `_xml` (scraper.py lines 237-240): the four chained
`str.replace` calls, in source order (`&`, `<`, `>`, `"`). -/
def xml_escape (s : List Char) : List Char :=
  replace_char '"' "&quot;".data
    (replace_char '>' "&gt;".data
      (replace_char '<' "&lt;".data
        (replace_char '&' "&amp;".data s)))

/-- Per-character view of `xml_escape` (used to prove its properties). -/
def esc_char (a : Char) : List Char :=
  if a = '&' then "&amp;".data
  else if a = '<' then "&lt;".data
  else if a = '>' then "&gt;".data
  else if a = '"' then "&quot;".data
  else [a]

/-- Checks that every `&` in a string begins one of the entities produced by
`xml_escape` (`&amp;`, `&lt;`, `&gt;`, `&quot;`), i.e. no ampersand is left
unescaped. -/
def amp_ok : List Char → Bool
  | [] => true
  | c :: rest =>
    (if c = '&' then
        ("amp;".data.isPrefixOf rest || "lt;".data.isPrefixOf rest ||
          "gt;".data.isPrefixOf rest || "quot;".data.isPrefixOf rest)
      else true) && amp_ok rest

-- ── Data model ──

/-- An article link scraped from the Links post: `{url, title, blurb}`. -/
structure Article where
  url : List Char
  title : List Char
  blurb : List Char
  deriving DecidableEq

/-- Result of `fetch_links_post` / `_parse_links_post`: the post title and the
ordered, capped list of article links. -/
structure Post where
  title : List Char
  articles : List Article
  deriving DecidableEq

/-- An episode record as stored in `state.json` (scraper.py lines 315-325),
with its keys in source insertion order. -/
structure Episode where
  guid : List Char
  title : List Char
  description : List Char
  audio_url : List Char
  file_size : Nat
  duration : List Char
  pub_date : List Char
  deriving DecidableEq

/-- The persisted feed state: `{"episodes": [...]}`. -/
structure FeedState where
  episodes : List Episode
  deriving DecidableEq

/-- One millisecond of audio: either inserted silence or sound belonging to a
chapter (tagged by chapter number and sample position). -/
inductive Tok where
  | sil : Tok
  | snd : Nat → Nat → Tok
  deriving DecidableEq

/-- An audio segment, one token per millisecond (pydub `AudioSegment`). -/
abbrev Audio := List Tok

/-- A successfully synthesized chapter: its 1-based article position, the
article title, and the audio written to `tmp_chapters/chapter_<i>.mp3`. -/
structure Chapter where
  index : Nat
  title : List Char
  audio : Audio
  deriving DecidableEq

/-- The file-system footprint of one run: the state file, the feed document,
the public audio directory, and the transient `tmp_chapters` directory
(`none` when absent). -/
structure World where
  stateFile : Option FeedState
  rssFile : Option (List Char)
  audioFiles : List (List Char × Audio)
  tmpChapters : Option (List Chapter)
  deriving DecidableEq

/-- Oracles for the external collaborators of one run: the scraped post, the
UTC date, per-url text extraction (`none` = skip), per-text speech synthesis
(`none` = raised, caught per article), per-file mp3 decoding inside assembly
(`none` = raised, uncaught), the exported file byte size, the commit-time
clock, and `email.utils.format_datetime ∘ datetime.fromisoformat`. -/
structure Env where
  post : Option Post
  today : List Char
  fetchText : List Char → Option (List Char)
  tts : List Char → Option Audio
  decodeMp3 : Audio → Option Audio
  encodeSize : Audio → Nat
  now : List Char
  fmtDate : List Char → List Char

/-- Observable effect counters of a run (speech-synthesis attempts). -/
structure Trace where
  ttsCalls : Nat
  deriving DecidableEq

/-- A run-aborting error: an exception escaping `assemble_episode`. -/
inductive RunError where
  | assemblyFailure : RunError
  deriving DecidableEq

-- ── Configuration constants (scraper.py lines 34-49, 162) ──

def GITHUB_PAGES_URL : List Char := "https://connie817954.github.io/nakedcap-podcast".data
def PODCAST_TITLE : List Char := "Naked Capitalism Daily Links".data
def PODCAST_DESCRIPTION : List Char := "Daily Links from nakedcapitalism.com, converted to audio.".data
def PODCAST_AUTHOR : List Char := "Naked Capitalism (TTS)".data
def PODCAST_EMAIL : List Char := "you@example.com".data
def MAX_ARTICLES : Nat := 20
def SILENCE_BETWEEN_CHAPTERS_MS : Nat := 2000

-- ── Chapter intro and TTS text (lines 148-155, 281-285) ──

/-- The fixed part of the spoken intro: `f"Chapter {index}. {title}."`. -/
def intro_base (index : Nat) (title : List Char) : List Char :=
  "Chapter ".data ++ (toString index).data ++ ". ".data ++ title ++ ['.']

/-- Embedding of `make_chapter_intro` (lines 148-155): the blurb is appended
only when non-empty and different from the title, shortened to 300 characters
with an ellipsis placeholder. -/
def make_chapter_intro (index : Nat) (title blurb : List Char) : List Char :=
  if blurb ≠ [] ∧ blurb ≠ title then
    intro_base index title ++ ' ' :: textwrap_shorten 300 "…".data blurb
  else intro_base index title

/-- The truncation placeholder of line 285, `" […end of article…]"`. -/
def end_marker : List Char := " […end of article…]".data

/-- The visible part of the end marker (its left-stripped form). -/
def marker_core : List Char := "[…end of article…]".data

/-- The full text handed to `text_to_speech` for one article
(lines 281-285): intro, blank line, body, shortened to 8000 characters. -/
def full_text_for (index : Nat) (a : Article) (body_text : List Char) : List Char :=
  textwrap_shorten 8000 end_marker
    (make_chapter_intro index a.title a.blurb ++ '\n' :: '\n' :: body_text)

-- ── Episode assembly (lines 165-179) ──

/-- The 2-second silence segment inserted between chapters. -/
def silence_seg : Audio := List.replicate SILENCE_BETWEEN_CHAPTERS_MS Tok.sil

/-- The concatenation loop of `assemble_episode` (lines 171-175): `total` is
`len(chapter_paths)`, `i` the enumerate index, `acc` the `combined` segment;
silence is appended after a chapter exactly when `i < total - 1`. -/
def assemble_rec (total : Nat) : Nat → List Audio → Audio → Audio
  | _, [], acc => acc
  | i, seg :: rest, acc =>
    assemble_rec total (i + 1) rest
      (if i < total - 1 then (acc ++ seg) ++ silence_seg else acc ++ seg)

/-- The combined audio produced by `assemble_episode` from successfully
decoded chapter segments. -/
def assemble_combined (chapters : List Audio) : Audio :=
  assemble_rec chapters.length 0 chapters []

/-- Specification-shaped form of the combined audio: chapters in order with
one silence segment strictly between consecutive chapters. -/
def sep_concat : List Audio → Audio
  | [] => []
  | [c] => c
  | c :: rest => c ++ silence_seg ++ sep_concat rest

/-- The sequence of `AudioSegment.from_mp3` reads in `assemble_episode`:
`none` as soon as one chapter file fails to decode. -/
def read_all (decode : Audio → Option Audio) : List Audio → Option (List Audio)
  | [] => some []
  | c :: rest =>
    match decode c with
    | none => none
    | some s => (read_all decode rest).map (fun l => s :: l)

/-- Embedding of `assemble_episode` (lines 165-179): decodes every chapter
file (a pydub decoding error escapes as the run error) and exports the
concatenation-with-gaps.  Note the source performs no emptiness check on
`chapter_paths`. -/
def assemble_episode (decode : Audio → Option Audio) (chapters : List Audio) :
    Except Unit Audio :=
  match read_all decode chapters with
  | none => Except.error ()
  | some segs => Except.ok (assemble_combined segs)

-- ── Feed state store (lines 186-193, 328-329) ──

/-- Embedding of `load_state` (lines 186-189): a missing state file is the
empty state. -/
def load_state (w : World) : FeedState := w.stateFile.getD ⟨[]⟩

/-- Python `l[-n:]` for a non-negative `n`. -/
def last_n {α : Type} (n : Nat) (l : List α) : List α := l.drop (l.length - n)

/-- The state update of lines 328-329: append the new episode record, then
keep only the last 30 entries. -/
def append_episode (st : FeedState) (e : Episode) : FeedState :=
  ⟨last_n 30 (st.episodes ++ [e])⟩

/-- The number of episodes in a state carrying a given guid. -/
def count_guid (st : FeedState) (g : List Char) : Nat :=
  st.episodes.countP (fun ep => decide (ep.guid = g))

-- ── Feed rendering (lines 196-234) ──

/-- One `<item>` block of the feed (the f-string of lines 201-210).
`fmtDate` stands for `format_datetime(datetime.fromisoformat(...))`. -/
def rss_item (fmtDate : List Char → List Char) (ep : Episode) : List Char :=
  "\n    <item>\n      <title>".data ++ xml_escape ep.title
  ++ "</title>\n      <description>".data ++ xml_escape ep.description
  ++ "</description>\n      <enclosure url=\"".data ++ ep.audio_url
  ++ "\" length=\"".data ++ (toString ep.file_size).data
  ++ "\" type=\"audio/mpeg\"/>\n      <guid isPermaLink=\"false\">".data ++ ep.guid
  ++ "</guid>\n      <pubDate>".data ++ fmtDate ep.pub_date
  ++ "</pubDate>\n      <itunes:duration>".data ++ ep.duration
  ++ "</itunes:duration>\n      <itunes:explicit>no</itunes:explicit>\n    </item>".data

/-- Embedding of `generate_rss` (lines 196-234): the channel template with the
items of the reversed (newest-first) episode list spliced in before
`</channel>`. -/
def generate_rss (fmtDate : List Char → List Char) (episodes : List Episode) : List Char :=
  "<?xml version=\"1.0\" encoding=\"UTF-8\"?>\n<rss version=\"2.0\"\n     xmlns:itunes=\"http://www.itunes.com/dtds/podcast-1.0.dtd\"\n     xmlns:content=\"http://purl.org/rss/1.0/modules/content/\">\n  <channel>\n    <title>".data
  ++ xml_escape PODCAST_TITLE
  ++ "</title>\n    <link>https://www.nakedcapitalism.com/</link>\n    <description>".data
  ++ xml_escape PODCAST_DESCRIPTION
  ++ "</description>\n    <language>en-us</language>\n    <itunes:author>".data
  ++ xml_escape PODCAST_AUTHOR
  ++ "</itunes:author>\n    <itunes:owner>\n      <itunes:name>".data
  ++ xml_escape PODCAST_AUTHOR
  ++ "</itunes:name>\n      <itunes:email>".data
  ++ xml_escape PODCAST_EMAIL
  ++ "</itunes:email>\n    </itunes:owner>\n    <itunes:category text=\"News\"/>\n    <itunes:explicit>no</itunes:explicit>\n    <image>\n      <url>".data
  ++ GITHUB_PAGES_URL ++ "/cover.jpg</url>\n      <title>".data
  ++ xml_escape PODCAST_TITLE
  ++ "</title>\n      <link>https://www.nakedcapitalism.com/</link>\n    </image>".data
  ++ ((episodes.reverse).map (rss_item fmtDate)).flatten
  ++ "\n  </channel>\n</rss>".data

-- ── Episode metadata (lines 309-325) ──

/-- Python `f"{n:02d}"` for the duration fields. -/
def pad2 (n : Nat) : List Char :=
  if n < 10 then '0' :: (toString n).data else (toString n).data

/-- The duration format of line 313: `HH:MM:SS`, zero-padded, whole seconds. -/
def duration_hms (secs : Nat) : List Char :=
  pad2 (secs / 3600) ++ ':' :: pad2 (secs % 3600 / 60) ++ ':' :: pad2 (secs % 60)

/-- The episode description of lines 318-320: the chapter count and up to the
first five chapter titles, with an ellipsis when more remain. -/
def description_for (n : Nat) (titles : List (List Char)) : List Char :=
  "Daily Links from Naked Capitalism. ".data ++ (toString n).data ++ " articles: ".data
  ++ join_with "; ".data (titles.take 5)
  ++ (if 5 < titles.length then "…".data else [])

-- ── Pipeline orchestrator (lines 247-335) ──

/-- Today's deterministic episode guid, `f"nc-links-{today}"` (line 257). -/
def episode_id_of (today : List Char) : List Char := "nc-links-".data ++ today

/-- One iteration of the article loop (lines 271-294) as a partial function:
`none` when the article is skipped (extraction or synthesis failure). -/
def process_article (env : Env) (i : Nat) (a : Article) : Option Chapter :=
  match env.fetchText a.url with
  | none => none
  | some body =>
    match env.tts (full_text_for i a body) with
    | none => none
    | some au => some ⟨i, a.title, au⟩

/-- The article loop of lines 271-294: articles processed in order with the
1-based enumerate index `i`; returns the surviving chapters and the number of
synthesis attempts. -/
def process_loop (env : Env) : Nat → List Article → List Chapter × Nat
  | _, [] => ([], 0)
  | i, a :: rest =>
    match env.fetchText a.url with
    | none => process_loop env (i + 1) rest
    | some body =>
      match env.tts (full_text_for i a body) with
      | none => ((process_loop env (i + 1) rest).1, (process_loop env (i + 1) rest).2 + 1)
      | some au =>
        (⟨i, a.title, au⟩ :: (process_loop env (i + 1) rest).1,
          (process_loop env (i + 1) rest).2 + 1)

/-- The chapters surviving the article loop, in production order. -/
def chapters_of (env : Env) (arts : List Article) : List Chapter :=
  (process_loop env 1 arts).1

/-- The number of synthesis calls attempted by the article loop. -/
def tts_calls_of (env : Env) (arts : List Article) : Nat :=
  (process_loop env 1 arts).2

/-- The episode record built at lines 315-325. -/
def build_episode (env : Env) (gid ptitle : List Char) (chapters : List Chapter)
    (combined : Audio) (filename : List Char) : Episode :=
  { guid := gid
    title := ptitle
    description := description_for chapters.length (chapters.map Chapter.title)
    audio_url := GITHUB_PAGES_URL ++ "/audio/".data ++ filename
    file_size := env.encodeSize combined
    duration := duration_hms (combined.length / 1000)
    pub_date := env.now }

/-- The commit stage (lines 302-334): export the episode file, remove
`tmp_chapters`, append the record, truncate, save the state, rewrite the
feed. -/
def commit (env : Env) (w : World) (post : Post) (combined : Audio) : World :=
  let gid := episode_id_of env.today
  let filename := gid ++ ".mp3".data
  let st2 := append_episode (load_state w)
    (build_episode env gid post.title (chapters_of env post.articles) combined filename)
  { w with
      tmpChapters := none
      audioFiles := w.audioFiles ++ [(filename, combined)]
      stateFile := some st2
      rssFile := some (generate_rss env.fmtDate st2.episodes) }

/-- Embedding of `run_pipeline` (lines 247-335).  An `Except.error` result is
an exception escaping the run; both constructors carry the file-system state
at the point the run ends. -/
def run_pipeline (env : Env) (w : World) : Except (RunError × World) (World × Trace) :=
  match env.post with
  | none => Except.ok (w, ⟨0⟩)
  | some post =>
    if (load_state w).episodes.any (fun ep => decide (ep.guid = episode_id_of env.today)) then
      Except.ok (w, ⟨0⟩)
    else if (chapters_of env post.articles).isEmpty then
      Except.ok ({ w with tmpChapters := none }, ⟨tts_calls_of env post.articles⟩)
    else
      match assemble_episode env.decodeMp3 ((chapters_of env post.articles).map Chapter.audio) with
      | Except.error _ =>
        Except.error (RunError.assemblyFailure,
          { w with tmpChapters := some (chapters_of env post.articles) })
      | Except.ok combined =>
        Except.ok (commit env w post combined, ⟨tts_calls_of env post.articles⟩)

/-- The file-system state at the end of a run, successful or not. -/
def world_after : Except (RunError × World) (World × Trace) → World
  | Except.ok p => p.1
  | Except.error p => p.2

/-- Whether the run ended in an escaping exception. -/
def run_failed : Except (RunError × World) (World × Trace) → Bool
  | Except.error _ => true
  | Except.ok _ => false

-- ── State persistence (lines 192-193): json.dumps(state, indent=2)
--    written with a single truncating Path.write_text ──

/-- Lower-case hexadecimal digit. -/
def hex_digit (n : Nat) : Char :=
  if n < 10 then Char.ofNat (48 + n) else Char.ofNat (87 + n)

/-- Four-digit lower-case hexadecimal rendering. -/
def hex4 (n : Nat) : List Char :=
  [hex_digit (n / 4096 % 16), hex_digit (n / 256 % 16), hex_digit (n / 16 % 16),
    hex_digit (n % 16)]

/-- Python json `\uXXXX` escape (with a surrogate pair above U+FFFF). -/
def u_escape (n : Nat) : List Char :=
  if n < 65536 then '\\' :: 'u' :: hex4 n
  else
    '\\' :: 'u' :: hex4 (55296 + (n - 65536) / 1024)
      ++ '\\' :: 'u' :: hex4 (56320 + (n - 65536) % 1024)

/-- Per-character escaping of Python `json.dumps` with `ensure_ascii=True`. -/
def json_esc_char (c : Char) : List Char :=
  if c = '"' then ['\\', '"']
  else if c = '\\' then ['\\', '\\']
  else if c = '\n' then ['\\', 'n']
  else if c = '\t' then ['\\', 't']
  else if c = '\r' then ['\\', 'r']
  else if c = '\x08' then ['\\', 'b']
  else if c = '\x0c' then ['\\', 'f']
  else if c.toNat < 32 then u_escape c.toNat
  else if c.toNat < 127 then [c]
  else u_escape c.toNat

/-- A double-quoted, escaped JSON string. -/
def json_string (s : List Char) : List Char :=
  '"' :: (s.map json_esc_char).flatten ++ ['"']

/-- One episode object as serialized by `json.dumps(state, indent=2)`
(keys in insertion order, `": "` separators, six-space field indent). -/
def dump_episode (e : Episode) : List Char :=
  "\x7b\n      \"guid\": ".data ++ json_string e.guid
  ++ ",\n      \"title\": ".data ++ json_string e.title
  ++ ",\n      \"description\": ".data ++ json_string e.description
  ++ ",\n      \"audio_url\": ".data ++ json_string e.audio_url
  ++ ",\n      \"file_size\": ".data ++ (toString e.file_size).data
  ++ ",\n      \"duration\": ".data ++ json_string e.duration
  ++ ",\n      \"pub_date\": ".data ++ json_string e.pub_date
  ++ "\n    \x7d".data

/-- The full serialized state written by `save_state`:
`json.dumps(state, indent=2)`. -/
def dump_state (st : FeedState) : List Char :=
  match st.episodes with
  | [] => "\x7b\n  \"episodes\": []\n\x7d".data
  | eps =>
    "\x7b\n  \"episodes\": [\n    ".data
    ++ join_with ",\n    ".data (eps.map dump_episode)
    ++ "\n  ]\n\x7d".data

/-- The sequence of file contents observable while `Path.write_text(data)`
runs: the open-for-write truncates the file to empty, then the data is
written front to back, so every prefix of `data` is an observable state and
the final state is `data` itself. -/
def write_text_states (data : List Char) : List (List Char) :=
  (List.range (data.length + 1)).map (fun k => data.take k)

/-- The file contents observable while `save_state(state)` (lines 192-193)
runs: a single truncating write of the serialized state. -/
def save_state_states (st : FeedState) : List (List Char) :=
  write_text_states (dump_state st)

-- ── Concrete fixtures used by witnesses and counterexamples ──

/-- A one-millisecond sound token. -/
def tokA : Tok := Tok.snd 1 0

/-- A minimal article fixture. -/
def art_w : Article := ⟨"http://example.com/a".data, "T".data, []⟩

/-- A minimal post fixture with one article. -/
def post_w : Post := ⟨"Links 1/1".data, [art_w]⟩

/-- An environment whose extraction always fails: every article is skipped. -/
def env_skip : Env :=
  { post := some post_w
    today := "2025-01-01".data
    fetchText := fun _ => none
    tts := fun _ => none
    decodeMp3 := fun a => some a
    encodeSize := fun _ => 0
    now := "2025-01-01T00:00:00+00:00".data
    fmtDate := fun s => s }

/-- An environment that produces one chapter and then fails to decode it
during assembly. -/
def env_leak : Env :=
  { env_skip with
      fetchText := fun _ => some "body".data
      tts := fun _ => some [tokA]
      decodeMp3 := fun _ => none }

/-- An episode whose guid is today's guid under `env_skip`/`env_leak`. -/
def ep_today : Episode :=
  { guid := episode_id_of "2025-01-01".data
    title := []
    description := []
    audio_url := []
    file_size := 0
    duration := []
    pub_date := [] }

/-- A world whose persisted state already holds today's episode. -/
def w_has_today : World :=
  { stateFile := some ⟨[ep_today]⟩, rssFile := none, audioFiles := [], tmpChapters := none }

/-- A world before any run: no state file, no feed, nothing else. -/
def w_empty : World :=
  { stateFile := none, rssFile := none, audioFiles := [], tmpChapters := none }

/-- The apostrophe character, `'`. -/
def apos : Char := Char.ofNat 39

/-- An episode whose title is a single apostrophe. -/
def ep_apos : Episode :=
  { guid := [], title := [apos], description := [], audio_url := [], file_size := 0
    duration := [], pub_date := [] }

/-- An episode with small concrete fields, used for serialization fixtures. -/
def ep_plain : Episode :=
  { guid := "g".data, title := "t".data, description := [], audio_url := [], file_size := 7
    duration := "00:00:01".data, pub_date := [] }

/-- The empty persisted state. -/
def st_prev : FeedState := ⟨[]⟩

/-- A persisted state holding one episode. -/
def st_one : FeedState := ⟨[ep_plain]⟩

/-- A 30-episode state, at the retention bound. -/
def st_30 : FeedState := ⟨List.replicate 30 ep_plain⟩

/-- A two-chapter audio list with no silence tokens inside the chapters. -/
def chs_w : List Audio := [[Tok.snd 1 0], [Tok.snd 2 0]]

/-- A small article body fixture. -/
def body_w : List Char := "War is over today.".data

/-- The world in which the leaking run ends: `tmp_chapters` still present. -/
def w_err : World :=
  { w_empty with tmpChapters := some [⟨1, "T".data, [tokA]⟩] }

-- ── Generic list helpers ──

theorem drop_append_of_le {α : Type} :
    ∀ (l₁ l₂ : List α) (n : Nat), n ≤ l₁.length →
      (l₁ ++ l₂).drop n = l₁.drop n ++ l₂ := by
  intro l₁
  induction l₁ with
  | nil => intro l₂ n h; simp at h; simp [h]
  | cons a t ih =>
    intro l₂ n h
    cases n with
    | zero => simp
    | succ m =>
      simp only [List.cons_append, List.drop_succ_cons]
      exact ih l₂ m (by simpa using h)

-- ── C9: bounded retention of the feed state ──

/-- C9: appending an episode inserts it at the end (the result always ends in
the new episode) and truncates to the most recent 30 entries, so the result
never has more than 30 entries, and on a 30-entry state the oldest entry (the
head) is the one evicted. -/
theorem C9_bounded_retention (st : FeedState) (e : Episode) :
    (append_episode st e).episodes.length ≤ 30 ∧
    (append_episode st e).episodes.getLast? = some e ∧
    (st.episodes.length = 30 →
      (append_episode st e).episodes = st.episodes.tail ++ [e]) := by
  have hk : st.episodes.length + 1 - 30 ≤ st.episodes.length := by omega
  refine ⟨?_, ?_, ?_⟩
  · simp [append_episode, last_n]
    omega
  · show ((st.episodes ++ [e]).drop ((st.episodes ++ [e]).length - 30)).getLast? = some e
    rw [List.length_append, List.length_singleton,
      drop_append_of_le st.episodes [e] _ hk, List.getLast?_concat]
  · intro h30
    show (st.episodes ++ [e]).drop ((st.episodes ++ [e]).length - 30) = st.episodes.tail ++ [e]
    rw [List.length_append, List.length_singleton,
      drop_append_of_le st.episodes [e] _ hk, h30]
    simp [List.drop_one]

/-- Witness for C9 at the retention bound: a 30-entry state. -/
theorem C9_witness :
    (append_episode st_30 ep_today).episodes = st_30.episodes.tail ++ [ep_today] :=
  (C9_bounded_retention st_30 ep_today).2.2 (by decide)

-- ── C5: silence placement in episode assembly ──

theorem assemble_rec_eq :
    ∀ (rest : List Audio) (i total : Nat) (acc : Audio), i + rest.length = total →
      assemble_rec total i rest acc = acc ++ sep_concat rest := by
  intro rest
  induction rest with
  | nil => intro i total acc _; simp [assemble_rec, sep_concat]
  | cons seg rest ih =>
    intro i total acc h
    cases rest with
    | nil =>
      have hi : ¬ i < total - 1 := by simp at h; omega
      simp [assemble_rec, sep_concat, hi]
    | cons v rest2 =>
      have hi : i < total - 1 := by simp at h; omega
      have h2 : (i + 1) + (v :: rest2).length = total := by simp at h ⊢; omega
      have step : assemble_rec total i (seg :: v :: rest2) acc
          = assemble_rec total (i + 1) (v :: rest2)
              (if i < total - 1 then (acc ++ seg) ++ silence_seg else acc ++ seg) := rfl
      rw [step, if_pos hi, ih (i + 1) total _ h2,
        show sep_concat (seg :: v :: rest2) = seg ++ silence_seg ++ sep_concat (v :: rest2)
          from rfl]
      simp [List.append_assoc]

theorem assemble_combined_eq (chs : List Audio) :
    assemble_combined chs = sep_concat chs := by
  simpa using assemble_rec_eq chs 0 chs.length [] (by omega)

theorem sep_concat_count (chs : List Audio) (h2 : ∀ c ∈ chs, Tok.sil ∉ c) :
    chs ≠ [] →
      (sep_concat chs).count Tok.sil = SILENCE_BETWEEN_CHAPTERS_MS * (chs.length - 1) := by
  induction chs with
  | nil => intro h; exact absurd rfl h
  | cons c rest ih =>
    intro _
    cases rest with
    | nil => simp [sep_concat, List.count_eq_zero.mpr (h2 c (by simp))]
    | cons v rest2 =>
      have hc : Tok.sil ∉ c := h2 c (by simp)
      have ih2 := ih (fun x hx => h2 x (by simp [hx])) (by simp)
      have hsil : silence_seg.count Tok.sil = SILENCE_BETWEEN_CHAPTERS_MS :=
        List.count_replicate_self _ _
      rw [show sep_concat (c :: v :: rest2) = c ++ silence_seg ++ sep_concat (v :: rest2)
          from rfl,
        List.count_append, List.count_append, List.count_eq_zero.mpr hc, hsil, ih2]
      simp only [List.length_cons, Nat.add_sub_cancel]
      ring

theorem sep_concat_filter (chs : List Audio) (h2 : ∀ c ∈ chs, Tok.sil ∉ c) :
    (sep_concat chs).filter (fun t => decide (t ≠ Tok.sil)) = chs.flatten := by
  induction chs with
  | nil => simp [sep_concat]
  | cons c rest ih =>
    have hc : Tok.sil ∉ c := h2 c (by simp)
    have hcf : c.filter (fun t => decide (t ≠ Tok.sil)) = c := by
      refine List.filter_eq_self.mpr (fun a ha => ?_)
      simp only [decide_eq_true_eq]
      rintro rfl
      exact hc ha
    cases rest with
    | nil => simpa [sep_concat] using hcf
    | cons v rest2 =>
      have ih2 := ih (fun x hx => h2 x (by simp [hx]))
      have hfs : silence_seg.filter (fun t => decide (t ≠ Tok.sil)) = [] := by
        rw [silence_seg, List.filter_replicate]
        simp
      rw [show sep_concat (c :: v :: rest2) = c ++ silence_seg ++ sep_concat (v :: rest2)
          from rfl,
        List.filter_append, List.filter_append, hcf, hfs, ih2]
      simp

/-- C5: the assembled episode is the chapters concatenated in list order with
a 2000 ms silence segment strictly between consecutive chapters: the silence
token count is exactly `2000·(K−1)` and removing the silence leaves exactly
the chapter concatenation (so no gap before the first or after the last
chapter, and zero gaps when K = 1). -/
theorem C5_silence_invariant (chs : List Audio) (h1 : chs ≠ [])
    (h2 : ∀ c ∈ chs, Tok.sil ∉ c) :
    assemble_combined chs = sep_concat chs ∧
    (assemble_combined chs).count Tok.sil
      = SILENCE_BETWEEN_CHAPTERS_MS * (chs.length - 1) ∧
    (assemble_combined chs).filter (fun t => decide (t ≠ Tok.sil)) = chs.flatten := by
  refine ⟨assemble_combined_eq chs, ?_, ?_⟩
  · rw [assemble_combined_eq]; exact sep_concat_count chs h2 h1
  · rw [assemble_combined_eq]; exact sep_concat_filter chs h2

/-- Witness for C5 on a concrete two-chapter list. -/
theorem C5_witness :
    (assemble_combined chs_w).count Tok.sil
      = SILENCE_BETWEEN_CHAPTERS_MS * (chs_w.length - 1) :=
  (C5_silence_invariant chs_w (by decide) (by decide)).2.1

-- ── C4: the assembler on an empty chapter list ──

theorem read_all_isSome (decode : Audio → Option Audio) (chs : List Audio) :
    (read_all decode chs).isSome = true ↔ ∀ c ∈ chs, (decode c).isSome = true := by
  induction chs with
  | nil => simp [read_all]
  | cons c rest ih =>
    cases hd : decode c with
    | none => simp [read_all, hd]
    | some s => simp [read_all, hd, ih]

/-- C4 counterexample: `assemble_episode` performs no emptiness check — on an
empty chapter list it succeeds and exports an empty audio file instead of
failing with an `AssemblyError`. -/
theorem C4_cex : assemble_episode (fun a => some a) [] = Except.ok [] := rfl

/-- C4 (amended): the assembler fails exactly when some input chapter file
fails to decode; it performs no empty-list check, and on an empty input it
silently succeeds with an empty output (the orchestrator's zero-chapter guard
is what keeps this call unreachable in the pipeline). -/
theorem C4_failure_condition (decode : Audio → Option Audio) (chs : List Audio) :
    ((∃ a, assemble_episode decode chs = Except.ok a)
        ↔ ∀ c ∈ chs, (decode c).isSome = true) ∧
    assemble_episode decode [] = Except.ok [] := by
  constructor
  · rw [← read_all_isSome]
    cases h : read_all decode chs with
    | none => simp [assemble_episode, h]
    | some segs => simp [assemble_episode, h]
  · rfl

/-- Witness for C4 on a concrete one-chapter list with a total decoder. -/
theorem C4_witness : ∃ a, assemble_episode (fun x => some x) [[tokA]] = Except.ok a :=
  (C4_failure_condition (fun x => some x) [[tokA]]).1.mpr (by decide)

-- ── C2: feed-renderer escaping ──

theorem replace_char_append (c : Char) (rep : List Char) (l₁ l₂ : List Char) :
    replace_char c rep (l₁ ++ l₂) = replace_char c rep l₁ ++ replace_char c rep l₂ := by
  induction l₁ with
  | nil => simp [replace_char]
  | cons a t ih => simp [replace_char, ih]

theorem xml_escape_single (a : Char) : xml_escape [a] = esc_char a := by
  by_cases h1 : a = '&'
  · subst h1; decide
  by_cases h2 : a = '<'
  · subst h2; decide
  by_cases h3 : a = '>'
  · subst h3; decide
  by_cases h4 : a = '"'
  · subst h4; decide
  simp [xml_escape, replace_char, subst_one, esc_char, h1, h2, h3, h4]

theorem xml_chain_single (a : Char) :
    replace_char '"' "&quot;".data (replace_char '>' "&gt;".data
      (replace_char '<' "&lt;".data (replace_char '&' "&amp;".data [a]))) = esc_char a :=
  xml_escape_single a

theorem xml_escape_cons (a : Char) (s : List Char) :
    xml_escape (a :: s) = esc_char a ++ xml_escape s := by
  show replace_char '"' "&quot;".data (replace_char '>' "&gt;".data
    (replace_char '<' "&lt;".data (replace_char '&' "&amp;".data ([a] ++ s)))) = _
  rw [replace_char_append, replace_char_append, replace_char_append, replace_char_append,
    xml_chain_single]
  rfl

theorem esc_char_no_specials (a : Char) :
    '<' ∉ esc_char a ∧ '>' ∉ esc_char a ∧ '"' ∉ esc_char a := by
  by_cases h1 : a = '&'
  · subst h1; decide
  by_cases h2 : a = '<'
  · subst h2; decide
  by_cases h3 : a = '>'
  · subst h3; decide
  by_cases h4 : a = '"'
  · subst h4; decide
  simp only [esc_char, if_neg h1, if_neg h2, if_neg h3, if_neg h4, List.mem_singleton]
  exact ⟨fun h => h2 h.symm, fun h => h3 h.symm, fun h => h4 h.symm⟩

theorem isPrefixOf_append_self (l r : List Char) : l.isPrefixOf (l ++ r) = true := by
  induction l with
  | nil => simp
  | cons a t ih => simp [List.isPrefixOf_cons₂, ih]

theorem amp_ok_esc_append (a : Char) (r : List Char) :
    amp_ok (esc_char a ++ r) = amp_ok r := by
  by_cases h1 : a = '&'
  · subst h1
    show amp_ok ('&' :: ("amp;".data ++ r)) = amp_ok r
    simp only [amp_ok, isPrefixOf_append_self]
    simp only [show "amp;".data ++ r = 'a' :: 'm' :: 'p' :: ';' :: r from rfl]
    simp [amp_ok]
  by_cases h2 : a = '<'
  · subst h2
    show amp_ok ('&' :: ("lt;".data ++ r)) = amp_ok r
    simp only [amp_ok, isPrefixOf_append_self]
    simp only [show "lt;".data ++ r = 'l' :: 't' :: ';' :: r from rfl]
    simp [amp_ok]
  by_cases h3 : a = '>'
  · subst h3
    show amp_ok ('&' :: ("gt;".data ++ r)) = amp_ok r
    simp only [amp_ok, isPrefixOf_append_self]
    simp only [show "gt;".data ++ r = 'g' :: 't' :: ';' :: r from rfl]
    simp [amp_ok]
  by_cases h4 : a = '"'
  · subst h4
    show amp_ok ('&' :: ("quot;".data ++ r)) = amp_ok r
    simp only [amp_ok, isPrefixOf_append_self]
    simp only [show "quot;".data ++ r = 'q' :: 'u' :: 'o' :: 't' :: ';' :: r from rfl]
    simp [amp_ok]
  have he : esc_char a = [a] := by simp [esc_char, h1, h2, h3, h4]
  rw [he]
  simp [amp_ok, h1]

/-- C2 (amended): the `_xml` transform applied to every user-derived field
(title, description, author, email) removes every raw `<`, `>` and `"` and
leaves every `&` starting one of the four produced entities, i.e. the four
characters `&`, `<`, `>`, `"` are escaped — but only those four of the five
reserved characters. -/
theorem C2_escaping (s : List Char) :
    '<' ∉ xml_escape s ∧ '>' ∉ xml_escape s ∧ '"' ∉ xml_escape s ∧
    amp_ok (xml_escape s) = true := by
  induction s with
  | nil => exact ⟨by simp [xml_escape, replace_char], by simp [xml_escape, replace_char],
      by simp [xml_escape, replace_char], rfl⟩
  | cons a t ih =>
    obtain ⟨ih1, ih2, ih3, ih4⟩ := ih
    obtain ⟨e1, e2, e3⟩ := esc_char_no_specials a
    rw [xml_escape_cons]
    refine ⟨?_, ?_, ?_, ?_⟩
    · intro hm
      cases List.mem_append.mp hm with
      | inl h => exact e1 h
      | inr h => exact ih1 h
    · intro hm
      cases List.mem_append.mp hm with
      | inl h => exact e2 h
      | inr h => exact ih2 h
    · intro hm
      cases List.mem_append.mp hm with
      | inl h => exact e3 h
      | inr h => exact ih3 h
    · rw [amp_ok_esc_append]; exact ih4

set_option maxRecDepth 20000 in
/-- C2 counterexample: the apostrophe — the fifth reserved character — is not
escaped: `_xml` maps it to itself, and a feed rendered from an episode whose
title is a single apostrophe contains that raw apostrophe. -/
theorem C2_cex :
    xml_escape [apos] = [apos] ∧ apos ∈ generate_rss (fun s => s) [ep_apos] := by
  decide

/-- Witness for C2 on a concrete string containing all four escaped
characters. -/
theorem C2_witness : amp_ok (xml_escape "a<b>&\"c".data) = true :=
  (C2_escaping "a<b>&\"c".data).2.2.2

-- ── C3: save_state and write atomicity ──

theorem write_text_head (data : List Char) : (write_text_states data).head? = some [] := by
  simp [write_text_states, List.range_succ_eq_map]

theorem write_text_last (data : List Char) :
    (write_text_states data).getLast? = some data := by
  rw [write_text_states, List.range_succ, List.map_append]
  simp [List.getLast?_concat]

theorem write_text_mem (data c : List Char) (hc : c ∈ write_text_states data) :
    c <+: data := by
  obtain ⟨k, -, rfl⟩ := List.mem_map.mp hc
  exact ⟨data.drop k, List.take_append_drop k data⟩

/-- C3 (amended): `save_state` performs one plain truncating write of the full
serialized state; once the write completes the file holds exactly the
serialization, and every state observable while the write runs is a (possibly
empty or strict) prefix of it — in particular the very first observable state
is the empty file, so a crash during `save` can destroy the previously saved
state and expose a partially-written file. -/
theorem C3_save_observables (st : FeedState) :
    (save_state_states st).head? = some [] ∧
    (save_state_states st).getLast? = some (dump_state st) ∧
    ∀ c ∈ save_state_states st, c <+: dump_state st := by
  exact ⟨write_text_head _, write_text_last _, fun c hc => write_text_mem _ c hc⟩

set_option maxRecDepth 20000 in
/-- C3 counterexample: while `save_state` writes a one-episode state over a
previously saved empty state, the file passes through a content (the empty
file) that is neither the previous serialized state nor the new one — a
reader (or a crash) at that moment observes a partially-written state file. -/
theorem C3_cex :
    ∃ c ∈ save_state_states st_one, c ≠ dump_state st_prev ∧ c ≠ dump_state st_one := by
  decide

set_option maxRecDepth 20000 in
/-- Witness for C3 at a concrete one-episode state. -/
theorem C3_witness : ([] : List Char) <+: dump_state st_one :=
  (C3_save_observables st_one).2.2 [] (by decide)

-- ── C8: ordering of surviving chapters ──

theorem process_loop_eq (env : Env) :
    ∀ (arts : List Article) (i : Nat),
      (process_loop env i arts).1
        = (List.enumFrom i arts).filterMap (fun p => process_article env p.1 p.2) := by
  intro arts
  induction arts with
  | nil => intro i; simp [process_loop]
  | cons a rest ih =>
    intro i
    rw [List.enumFrom_cons, List.filterMap_cons]
    cases hft : env.fetchText a.url with
    | none =>
      have hpa : process_article env i a = none := by simp [process_article, hft]
      simp only [hpa]
      simpa [process_loop, hft] using ih (i + 1)
    | some body =>
      cases htts : env.tts (full_text_for i a body) with
      | none =>
        have hpa : process_article env i a = none := by simp [process_article, hft, htts]
        simp only [hpa]
        simpa [process_loop, hft, htts] using ih (i + 1)
      | some au =>
        have hpa : process_article env i a = some ⟨i, a.title, au⟩ := by
          simp [process_article, hft, htts]
        simp only [hpa]
        simpa [process_loop, hft, htts] using ih (i + 1)

theorem process_loop_mem (env : Env) :
    ∀ (arts : List Article) (i : Nat) (c : Chapter),
      c ∈ (process_loop env i arts).1 →
      i ≤ c.index ∧ ∃ a, arts[c.index - i]? = some a ∧ c.title = a.title := by
  intro arts
  induction arts with
  | nil => intro i c hc; simp [process_loop] at hc
  | cons a rest ih =>
    intro i c hc
    cases hft : env.fetchText a.url with
    | none =>
      rw [show process_loop env i (a :: rest) = process_loop env (i + 1) rest from by
        simp [process_loop, hft]] at hc
      obtain ⟨hle, a2, ha2, ht⟩ := ih (i + 1) c hc
      refine ⟨by omega, a2, ?_, ht⟩
      rw [show c.index - i = (c.index - (i + 1)) + 1 from by omega, List.getElem?_cons_succ]
      exact ha2
    | some body =>
      cases htts : env.tts (full_text_for i a body) with
      | none =>
        have hloop : (process_loop env i (a :: rest)).1 = (process_loop env (i + 1) rest).1 := by
          simp [process_loop, hft, htts]
        rw [hloop] at hc
        obtain ⟨hle, a2, ha2, ht⟩ := ih (i + 1) c hc
        refine ⟨by omega, a2, ?_, ht⟩
        rw [show c.index - i = (c.index - (i + 1)) + 1 from by omega, List.getElem?_cons_succ]
        exact ha2
      | some au =>
        have hloop : (process_loop env i (a :: rest)).1
            = ⟨i, a.title, au⟩ :: (process_loop env (i + 1) rest).1 := by
          simp [process_loop, hft, htts]
        rw [hloop] at hc
        cases List.mem_cons.mp hc with
        | inl h =>
          subst h
          exact ⟨Nat.le_refl _, a, by simp, rfl⟩
        | inr h =>
          obtain ⟨hle, a2, ha2, ht⟩ := ih (i + 1) c h
          refine ⟨by omega, a2, ?_, ht⟩
          rw [show c.index - i = (c.index - (i + 1)) + 1 from by omega, List.getElem?_cons_succ]
          exact ha2

theorem process_loop_index_lt (env : Env) :
    ∀ (arts : List Article) (i : Nat),
      List.Pairwise (fun x y => x < y) ((process_loop env i arts).1.map Chapter.index) := by
  intro arts
  induction arts with
  | nil => intro i; simp [process_loop]
  | cons a rest ih =>
    intro i
    cases hft : env.fetchText a.url with
    | none => simpa [process_loop, hft] using ih (i + 1)
    | some body =>
      cases htts : env.tts (full_text_for i a body) with
      | none => simpa [process_loop, hft, htts] using ih (i + 1)
      | some au =>
        have hloop : (process_loop env i (a :: rest)).1
            = ⟨i, a.title, au⟩ :: (process_loop env (i + 1) rest).1 := by
          simp [process_loop, hft, htts]
        rw [hloop, List.map_cons]
        refine List.Pairwise.cons ?_ (ih (i + 1))
        intro x hx
        obtain ⟨c, hc, rfl⟩ := List.mem_map.mp hx
        have hle := (process_loop_mem env rest (i + 1) c hc).1
        show i < c.index
        omega

/-- C8: the chapter sequence is exactly the 1-based enumeration of the source
articles filtered through per-article processing — skipped articles leave
gaps, survivors keep the source order, chapter indices are strictly
increasing, and each chapter's index points back to its article's position in
the source list (whose length is within the cap of 20). -/
theorem C8_ordering (env : Env) (arts : List Article) (_cap : arts.length ≤ MAX_ARTICLES) :
    chapters_of env arts
      = (List.enumFrom 1 arts).filterMap (fun p => process_article env p.1 p.2) ∧
    List.Pairwise (fun x y => x < y) ((chapters_of env arts).map Chapter.index) ∧
    ∀ c ∈ chapters_of env arts,
      1 ≤ c.index ∧ ∃ a, arts[c.index - 1]? = some a ∧ c.title = a.title := by
  exact ⟨process_loop_eq env arts 1, process_loop_index_lt env arts 1,
    fun c hc => process_loop_mem env arts 1 c hc⟩

/-- Witness for C8 on a concrete one-article list. -/
theorem C8_witness :
    chapters_of env_leak [art_w]
      = (List.enumFrom 1 [art_w]).filterMap (fun p => process_article env_leak p.1 p.2) :=
  (C8_ordering env_leak [art_w] (by decide)).1

-- ── C1: dedup idempotence ──

theorem count_guid_append (st : FeedState) (e : Episode) (g : List Char) :
    count_guid (append_episode st e) g ≤ count_guid st g + 1 := by
  have h1 : (last_n 30 (st.episodes ++ [e])).countP (fun ep => decide (ep.guid = g))
      ≤ (st.episodes ++ [e]).countP (fun ep => decide (ep.guid = g)) :=
    (List.drop_sublist _ _).countP_le _
  have h2 : (st.episodes ++ [e]).countP (fun ep => decide (ep.guid = g))
      = st.episodes.countP (fun ep => decide (ep.guid = g))
        + [e].countP (fun ep => decide (ep.guid = g)) := by simp
  have h3 : [e].countP (fun ep => decide (ep.guid = g)) ≤ 1 := by
    simpa using List.countP_le_length (p := fun ep => decide (ep.guid = g)) (l := [e])
  show (last_n 30 (st.episodes ++ [e])).countP (fun ep => decide (ep.guid = g))
      ≤ st.episodes.countP (fun ep => decide (ep.guid = g)) + 1
  omega

theorem count_guid_zero_of_not_any (w : World) (g : List Char)
    (hd : (load_state w).episodes.any (fun ep => decide (ep.guid = g)) = false) :
    count_guid (load_state w) g = 0 := by
  rw [count_guid, List.countP_eq_zero]
  intro ep hep
  have := List.any_eq_false.mp hd ep hep
  simpa using this

/-- C1: when the loaded feed state already holds today's deterministic guid,
the pipeline run is a no-op beyond the dedup check — it returns the world
unchanged with zero synthesis attempts — and any run preserves the invariant
that at most one episode with today's guid is in the state, so two runs
resolving to the same date leave at most one such episode. -/
theorem C1_idempotence (env : Env) :
    (∀ w : World,
        (load_state w).episodes.any
          (fun ep => decide (ep.guid = episode_id_of env.today)) = true →
        run_pipeline env w = Except.ok (w, ⟨0⟩)) ∧
    (∀ w : World,
        count_guid (load_state w) (episode_id_of env.today) ≤ 1 →
        count_guid (load_state (world_after (run_pipeline env w)))
          (episode_id_of env.today) ≤ 1) := by
  constructor
  · intro w hd
    cases hp : env.post with
    | none => simp [run_pipeline, hp]
    | some post => simp [run_pipeline, hp, hd]
  · intro w hcount
    cases hp : env.post with
    | none => simpa [run_pipeline, hp, world_after] using hcount
    | some post =>
      by_cases hd : (load_state w).episodes.any
          (fun ep => decide (ep.guid = episode_id_of env.today)) = true
      · simpa [run_pipeline, hp, hd, world_after] using hcount
      · have hd2 : (load_state w).episodes.any
            (fun ep => decide (ep.guid = episode_id_of env.today)) = false := by
          rwa [Bool.not_eq_true] at hd
        have hzero := count_guid_zero_of_not_any w (episode_id_of env.today) hd2
        cases hch : chapters_of env post.articles with
        | nil =>
          have hrun : run_pipeline env w = Except.ok
              ({ w with tmpChapters := none }, ⟨tts_calls_of env post.articles⟩) := by
            simp [run_pipeline, hp, hd2, hch]
          rw [hrun]
          show count_guid (load_state { w with tmpChapters := none }) _ ≤ 1
          have : load_state { w with tmpChapters := none } = load_state w := rfl
          rw [this]
          omega
        | cons c rest =>
          cases ha : assemble_episode env.decodeMp3 (c.audio :: List.map Chapter.audio rest) with
          | error err =>
            have hrun : run_pipeline env w = Except.error (RunError.assemblyFailure,
                { w with tmpChapters := some (c :: rest) }) := by
              simp [run_pipeline, hp, hd2, hch, ha]
            rw [hrun]
            show count_guid (load_state { w with tmpChapters := some (c :: rest) }) _ ≤ 1
            have : load_state { w with tmpChapters := some (c :: rest) } = load_state w := rfl
            rw [this]
            omega
          | ok combined =>
            have hrun : run_pipeline env w = Except.ok
                (commit env w post combined, ⟨tts_calls_of env post.articles⟩) := by
              simp [run_pipeline, hp, hd2, hch, ha]
            rw [hrun]
            show count_guid (load_state (commit env w post combined)) _ ≤ 1
            have hld : load_state (commit env w post combined)
                = append_episode (load_state w)
                    (build_episode env (episode_id_of env.today) post.title
                      (chapters_of env post.articles) combined
                      (episode_id_of env.today ++ ".mp3".data)) := rfl
            rw [hld]
            have := count_guid_append (load_state w)
              (build_episode env (episode_id_of env.today) post.title
                (chapters_of env post.articles) combined
                (episode_id_of env.today ++ ".mp3".data)) (episode_id_of env.today)
            omega

/-- Witness for C1 on a concrete world already holding today's episode. -/
theorem C1_witness : run_pipeline env_skip w_has_today = Except.ok (w_has_today, ⟨0⟩) :=
  (C1_idempotence env_skip).1 w_has_today (by decide)

-- ── C6: the zero-chapter abort path ──

/-- C6: when the post is found, dedup passes, and no chapters survive article
processing, the run releases the transient chapter directory and terminates
without touching the state store, the feed document, or the public audio
directory. -/
theorem C6_zero_chapters (env : Env) (post : Post) (w : World)
    (hp : env.post = some post)
    (hd : (load_state w).episodes.any
      (fun ep => decide (ep.guid = episode_id_of env.today)) = false)
    (hz : chapters_of env post.articles = []) :
    run_pipeline env w
      = Except.ok ({ w with tmpChapters := none }, ⟨tts_calls_of env post.articles⟩) ∧
    (world_after (run_pipeline env w)).stateFile = w.stateFile ∧
    (world_after (run_pipeline env w)).rssFile = w.rssFile ∧
    (world_after (run_pipeline env w)).audioFiles = w.audioFiles ∧
    (world_after (run_pipeline env w)).tmpChapters = none := by
  have hrun : run_pipeline env w
      = Except.ok ({ w with tmpChapters := none }, ⟨tts_calls_of env post.articles⟩) := by
    simp [run_pipeline, hp, hd, hz]
  rw [hrun]
  exact ⟨rfl, rfl, rfl, rfl, rfl⟩

/-- Witness for C6 on a concrete environment in which every article is
skipped. -/
theorem C6_witness :
    (world_after (run_pipeline env_skip w_empty)).rssFile = w_empty.rssFile :=
  (C6_zero_chapters env_skip post_w w_empty rfl (by decide) (by decide)).2.2.1

-- ── C7: release of transient chapter files ──

/-- C7 counterexample: a run in which assembly fails ends with the exception
escaping while `tmp_chapters` is still present — the temporary chapter files
are leaked, not released. -/
theorem C7_cex :
    run_failed (run_pipeline env_leak w_empty) = true ∧
    (world_after (run_pipeline env_leak w_empty)).tmpChapters ≠ none := by
  decide

/-- C7 (amended): the transient chapter directory is released on every path
on which the run returns normally (the zero-chapter abort and the successful
commit; the pre-loop skip paths never create it), but when assembly fails the
exception propagates before the cleanup line and the run ends with the
temporary chapter files still present. -/
theorem C7_cleanup (env : Env) (w : World) :
    (∀ w2 tr, run_pipeline env w = Except.ok (w2, tr) →
      w2.tmpChapters = none ∨ w2 = w) ∧
    (∀ e w2, run_pipeline env w = Except.error (e, w2) →
      ∃ cs, cs ≠ [] ∧ w2.tmpChapters = some cs) := by
  cases hp : env.post with
  | none =>
    constructor
    · intro w2 tr hok
      simp [run_pipeline, hp] at hok
      exact Or.inr hok.1.symm
    · intro e w2 herr
      simp [run_pipeline, hp] at herr
  | some post =>
    by_cases hd : (load_state w).episodes.any
        (fun ep => decide (ep.guid = episode_id_of env.today)) = true
    · constructor
      · intro w2 tr hok
        simp [run_pipeline, hp, hd] at hok
        exact Or.inr hok.1.symm
      · intro e w2 herr
        simp [run_pipeline, hp, hd] at herr
    · have hd2 : (load_state w).episodes.any
          (fun ep => decide (ep.guid = episode_id_of env.today)) = false := by
        rwa [Bool.not_eq_true] at hd
      cases hch : chapters_of env post.articles with
      | nil =>
        constructor
        · intro w2 tr hok
          simp [run_pipeline, hp, hd2, hch] at hok
          left
          rw [← hok.1]
        · intro e w2 herr
          simp [run_pipeline, hp, hd2, hch] at herr
      | cons c rest =>
        cases ha : assemble_episode env.decodeMp3 (c.audio :: List.map Chapter.audio rest) with
        | error err =>
          constructor
          · intro w2 tr hok
            simp [run_pipeline, hp, hd2, hch, ha] at hok
          · intro e w2 herr
            simp [run_pipeline, hp, hd2, hch, ha] at herr
            refine ⟨c :: rest, by simp, ?_⟩
            rw [← herr]
        | ok combined =>
          constructor
          · intro w2 tr hok
            simp [run_pipeline, hp, hd2, hch, ha] at hok
            left
            rw [← hok.1]
            rfl
          · intro e w2 herr
            simp [run_pipeline, hp, hd2, hch, ha] at herr

/-- Witness for C7 on the concrete failing-assembly run. -/
theorem C7_witness : ∃ cs, cs ≠ [] ∧ w_err.tmpChapters = some cs :=
  (C7_cleanup env_leak w_empty).2 RunError.assemblyFailure w_err rfl

-- ── C10: the text handed to speech synthesis ──

theorem words_aux_append_space (sp : Char) (hsp : is_py_space sp = true) :
    ∀ (x cur y : List Char),
      words_aux cur (x ++ sp :: y) = words_aux cur x ++ words_aux [] y := by
  intro x
  induction x with
  | nil =>
    intro cur y
    show words_aux cur (sp :: y) = words_aux cur [] ++ words_aux [] y
    by_cases hcur : cur = []
    · subst hcur; simp [words_aux, hsp]
    · simp [words_aux, hsp, hcur]
  | cons c t ih =>
    intro cur y
    show words_aux cur (c :: (t ++ sp :: y)) = words_aux cur (c :: t) ++ words_aux [] y
    by_cases hc : is_py_space c = true
    · by_cases hcur : cur = []
      · subst hcur; simp [words_aux, hc, ih]
      · simp [words_aux, hc, hcur, ih]
    · have hc2 : is_py_space c = false := by rwa [Bool.not_eq_true] at hc
      simp [words_aux, hc2, ih]

theorem words_of_append_nn (x y : List Char) :
    words_of (x ++ '\n' :: '\n' :: y) = words_of x ++ words_of y := by
  show words_aux [] (x ++ '\n' :: '\n' :: y) = words_aux [] x ++ words_aux [] y
  rw [words_aux_append_space '\n' (by decide) x [] ('\n' :: y)]
  congr 1

theorem join_with_append (sep : List Char) :
    ∀ (xs ys : List (List Char)), xs ≠ [] → ys ≠ [] →
      join_with sep (xs ++ ys) = join_with sep xs ++ sep ++ join_with sep ys := by
  intro xs
  induction xs with
  | nil => intro ys h _; exact absurd rfl h
  | cons w xs2 ih =>
    intro ys _ hys
    cases xs2 with
    | nil =>
      cases ys with
      | nil => exact absurd rfl hys
      | cons v ys2 => rfl
    | cons u xs3 =>
      have hih := ih ys (by simp) hys
      have e1 : join_with sep ((w :: u :: xs3) ++ ys)
          = w ++ sep ++ join_with sep ((u :: xs3) ++ ys) := rfl
      have e2 : join_with sep (w :: u :: xs3)
          = w ++ sep ++ join_with sep (u :: xs3) := rfl
      rw [e1, hih, e2]
      simp [List.append_assoc]

theorem py_collapse_append_nn (x y : List Char)
    (hx : words_of x ≠ []) (hy : words_of y ≠ []) :
    py_collapse (x ++ '\n' :: '\n' :: y) = py_collapse x ++ ' ' :: py_collapse y := by
  rw [py_collapse, words_of_append_nn, join_with_append [' '] _ _ hx hy]
  simp [py_collapse, List.append_assoc]

theorem textwrap_shorten_short (width : Nat) (ph s : List Char)
    (h : (py_collapse s).length ≤ width) :
    textwrap_shorten width ph s = py_collapse s := by
  simp only [textwrap_shorten]
  rw [if_pos (show (join_with [' '] (words_of s)).length ≤ width from h)]
  rfl

theorem textwrap_shorten_em_long (s : List Char)
    (h : 8000 < (py_collapse s).length) :
    (textwrap_shorten 8000 end_marker s).length ≤ 8000 ∧
    marker_core <:+ textwrap_shorten 8000 end_marker s := by
  have hnot : ¬ (join_with [' '] (words_of s)).length ≤ 8000 := by
    have he : (py_collapse s).length = (join_with [' '] (words_of s)).length := rfl
    omega
  cases hbc : best_cut 8000 end_marker.length (words_of s) with
  | none =>
    have heq : textwrap_shorten 8000 end_marker s = lstrip_of end_marker := by
      simp only [textwrap_shorten]
      rw [if_neg hnot, hbc]
    rw [heq]
    constructor
    · decide
    · have hl : lstrip_of end_marker = marker_core := by decide
      rw [hl]
  | some j =>
    have heq : textwrap_shorten 8000 end_marker s
        = join_with [' '] ((words_of s).take j) ++ end_marker := by
      simp only [textwrap_shorten]
      rw [if_neg hnot, hbc]
    have hp := List.find?_some
      (show ((List.range ((words_of s).length + 1)).reverse).find?
          (fun j => decide (1 ≤ j ∧
            (join_with [' '] ((words_of s).take j)).length + end_marker.length ≤ 8000))
          = some j from hbc)
    obtain ⟨-, hle⟩ := of_decide_eq_true hp
    rw [heq]
    constructor
    · rw [List.length_append]
      exact hle
    · refine ⟨join_with [' '] ((words_of s).take j) ++ [' '], ?_⟩
      rw [List.append_assoc]
      congr 1

/-- C10 (amended): the synthesized text is `textwrap.shorten` applied to the
intro, a blank-line separator and the body; the intro is `"Chapter n. title."`
with the blurb appended only when non-empty and different from the title
(shortened to 300 characters with an ellipsis placeholder); but the
shortening pass collapses every whitespace run — including the blank-line
separator — to a single space, so when the collapsed text fits in 8000
characters the synthesized text is the collapsed intro and collapsed body
separated by one space, and when it does not fit the result is cut at a word
boundary to at most 8000 characters and carries the visible end-marker as a
suffix. -/
theorem C10_tts_text (i : Nat) (a : Article) (body : List Char) :
    full_text_for i a body
      = textwrap_shorten 8000 end_marker
          (make_chapter_intro i a.title a.blurb ++ '\n' :: '\n' :: body) ∧
    (a.blurb = [] ∨ a.blurb = a.title →
      make_chapter_intro i a.title a.blurb = intro_base i a.title) ∧
    (a.blurb ≠ [] → a.blurb ≠ a.title →
      make_chapter_intro i a.title a.blurb
        = intro_base i a.title ++ ' ' :: textwrap_shorten 300 "…".data a.blurb) ∧
    (words_of (make_chapter_intro i a.title a.blurb) ≠ [] → words_of body ≠ [] →
      (py_collapse (make_chapter_intro i a.title a.blurb ++ '\n' :: '\n' :: body)).length
          ≤ 8000 →
      full_text_for i a body
        = py_collapse (make_chapter_intro i a.title a.blurb) ++ ' ' :: py_collapse body) ∧
    (8000 < (py_collapse (make_chapter_intro i a.title a.blurb ++ '\n' :: '\n' :: body)).length →
      (full_text_for i a body).length ≤ 8000 ∧ marker_core <:+ full_text_for i a body) := by
  refine ⟨rfl, ?_, ?_, ?_, ?_⟩
  · intro h
    have hnc : ¬ (a.blurb ≠ [] ∧ a.blurb ≠ a.title) := by
      rcases h with h | h
      · exact fun hc => hc.1 h
      · exact fun hc => hc.2 h
    unfold make_chapter_intro
    rw [if_neg hnc]
  · intro h1 h2
    unfold make_chapter_intro
    rw [if_pos ⟨h1, h2⟩]
  · intro hwx hwy hlen
    rw [full_text_for, textwrap_shorten_short _ _ _ hlen, py_collapse_append_nn _ _ hwx hwy]
  · intro hlen
    rw [full_text_for]
    exact textwrap_shorten_em_long _ hlen

/-- C10 counterexample: for a short article the text handed to synthesis is
not the intro followed by a blank-line separator and the body — the
shortening pass has collapsed the separator, and no newline survives in the
synthesized text at all. -/
theorem C10_cex :
    full_text_for 1 art_w body_w
      ≠ make_chapter_intro 1 art_w.title art_w.blurb ++ '\n' :: '\n' :: body_w ∧
    '\n' ∉ full_text_for 1 art_w body_w := by
  decide

/-- Witness for C10 on a concrete short article. -/
theorem C10_witness :
    full_text_for 1 art_w body_w
      = py_collapse (make_chapter_intro 1 art_w.title art_w.blurb)
        ++ ' ' :: py_collapse body_w :=
  (C10_tts_text 1 art_w body_w).2.2.2.1 (by decide) (by decide) (by decide)

end NakedCap
